import Mathlib

/-!
# ThrottleBox: a shallow embedding of the MQTT rate-limiting proxy core

This file embeds the core of the `iot-dos-throttlebox` C++ sources in Lean 4
and proves the specification claims about it.

Modelling conventions:
* C++ `double` quantities (token counts, refill rates) are modelled as `ℚ`.
* `std::chrono::steady_clock::time_point` is modelled as an integer number of
  milliseconds; the default-constructed time point (`time_point{}`, the
  "unset" sentinel tested by `refillBucket`) is `0`.
* `std::unordered_map` is modelled as an association list with the observable
  lookup/insert/erase operations used by the source.
* `char` is signed (the usual x86 Linux ABI the source targets); the bytes of
  a peeked buffer are modelled as natural numbers `< 256` and sign extension
  is made explicit where the source does integer arithmetic on `char`s.
* The two `steady_clock::now()` reads inside one `allow` call
  (`checkAndUpdateBucket` and `refillBucket`) are modelled as the same
  instant `now` of the call.
-/

namespace ThrottleBox

/-- `RateLimitPolicy` from `include/throttlebox/rate_limiter.hpp`:
`double maxMessagesPerSec; int burstSize; int blockDurationSec;`. -/
structure RateLimitPolicy where
  maxMessagesPerSec : ℚ
  burstSize : ℤ
  blockDurationSec : ℤ
  deriving Repr, DecidableEq

/-- `TokenBucket` from `include/throttlebox/rate_limiter.hpp`:
`double tokens = 0.0; steady_clock::time_point lastRefill; steady_clock::time_point blockedUntil; bool isBlocked = false;`.
Times are in milliseconds; `lastRefill = 0` is the default-constructed
("never touched") time point. -/
structure TokenBucket where
  tokens : ℚ := 0
  lastRefill : ℤ := 0
  blockedUntil : ℤ := 0
  isBlocked : Bool := false
  deriving Repr, DecidableEq

/-- Association-list model of `std::unordered_map` lookup (`find`). -/
def lookupA {α : Type} : List (String × α) → String → Option α
  | [], _ => none
  | q :: rest, k => if q.1 = k then some q.2 else lookupA rest k

/-- Association-list model of `std::unordered_map` assignment
(`m[k] = v`): replace the entry for `k` if present, otherwise append it. -/
def insertA {α : Type} : List (String × α) → String → α → List (String × α)
  | [], k, v => [(k, v)]
  | q :: rest, k, v => if q.1 = k then (k, v) :: rest else q :: insertA rest k v

/-- `RateLimiter::refillBucket` from `src/rate_limiter.cpp`:
on the unset `lastRefill` it initialises `tokens = burstSize` and stamps the
bucket; otherwise it adds `secondsElapsed * maxMessagesPerSec` tokens,
clamped above by `burstSize`, and stamps the bucket.  `secondsElapsed` is
the elapsed milliseconds divided by `1000.0`. -/
def refillBucket (bucket : TokenBucket) (policy : RateLimitPolicy) (now : ℤ) :
    TokenBucket :=
  if bucket.lastRefill = 0 then
    { bucket with lastRefill := now, tokens := (policy.burstSize : ℚ) }
  else
    let secondsElapsed : ℚ := ((now - bucket.lastRefill : ℤ) : ℚ) / 1000
    let tokensToAdd : ℚ := secondsElapsed * policy.maxMessagesPerSec
    { bucket with
        tokens := min (policy.burstSize : ℚ) (bucket.tokens + tokensToAdd),
        lastRefill := now }

/-- `RateLimiter::checkAndUpdateBucket` from `src/rate_limiter.cpp`:
refill first; then deny while a block window is open; clear an expired
block; then consume one token or deny (entering the blocked state exactly
when `blockDurationSec > 0`).  Returns the decision and the updated
bucket. -/
def checkAndUpdateBucket (bucket : TokenBucket) (policy : RateLimitPolicy)
    (now : ℤ) : Bool × TokenBucket :=
  let b1 := refillBucket bucket policy now
  if b1.isBlocked = true ∧ now < b1.blockedUntil then
    (false, b1)
  else
    let b2 := if b1.isBlocked = true ∧ b1.blockedUntil ≤ now then
      { b1 with isBlocked := false } else b1
    if 1 ≤ b2.tokens then
      (true, { b2 with tokens := b2.tokens - 1 })
    else if 0 < policy.blockDurationSec then
      (false, { b2 with isBlocked := true,
                        blockedUntil := now + policy.blockDurationSec * 1000 })
    else
      (false, b2)

/-- The whole-limiter state of `RateLimiter` from
`include/throttlebox/rate_limiter.hpp`: the default policy, the per-client
policy overrides, the bucket table and the two statistics counters. -/
structure RateLimiterState where
  defaultPolicy : RateLimitPolicy
  clientPolicies : List (String × RateLimitPolicy) := []
  buckets : List (String × TokenBucket) := []
  allowedMessages : ℕ := 0
  blockedMessages : ℕ := 0
  deriving Repr, DecidableEq

/-- The key computation at the top of `RateLimiter::allow`:
`clientId.empty() ? ip : clientId`. -/
def limiterKey (ip clientId : String) : String :=
  if clientId = "" then ip else clientId

/-- The effective policy of an `allow` call: the override-table entry for
`clientId` if present, else the default policy. -/
def effectivePolicy (s : RateLimiterState) (clientId : String) :
    RateLimitPolicy :=
  (lookupA s.clientPolicies clientId).getD s.defaultPolicy

/-- `RateLimiter::allow` from `src/rate_limiter.cpp`: compute the key and
the effective policy, run `checkAndUpdateBucket` on the bucket filed under
the key (`buckets_[key]` default-constructs an absent bucket), and bump
exactly one statistics counter. -/
def allow (s : RateLimiterState) (now : ℤ) (ip clientId : String) :
    Bool × RateLimiterState :=
  let key := limiterKey ip clientId
  let policy := effectivePolicy s clientId
  let bucket := (lookupA s.buckets key).getD {}
  let r := checkAndUpdateBucket bucket policy now
  (r.1,
    { s with
        buckets := insertA s.buckets key r.2,
        allowedMessages := if r.1 then s.allowedMessages + 1
          else s.allowedMessages,
        blockedMessages := if r.1 then s.blockedMessages
          else s.blockedMessages + 1 })

/-- `RateLimiter::setClientPolicy` from `src/rate_limiter.cpp`:
`clientPolicies_[clientId] = policy;`. -/
def setClientPolicy (s : RateLimiterState) (clientId : String)
    (policy : RateLimitPolicy) : RateLimiterState :=
  { s with clientPolicies := insertA s.clientPolicies clientId policy }

/-- The survival test of `RateLimiter::cleanupExpired`: a bucket is kept
when `now - lastRefill > hours(1)` (3 600 000 ms) is false. -/
def bucketFresh (now : ℤ) (b : TokenBucket) : Bool :=
  !decide (3600000 < now - b.lastRefill)

/-- `RateLimiter::cleanupExpired` from `src/rate_limiter.cpp`: erase every
bucket whose `lastRefill` lies more than one hour (3 600 000 ms) before
`now`; keep the rest. -/
def cleanupExpired (s : RateLimiterState) (now : ℤ) : RateLimiterState :=
  { s with buckets := s.buckets.filter fun q => bucketFresh now q.2 }

/-! ## CONNECT parser and worker (`src/throttlebox.cpp`) -/

/-- Sign extension of one peeked byte: the value of the signed `char`
`buffer[i]` after integral promotion to `int`. -/
def signExt (b : ℕ) : ℤ := if b < 128 then (b : ℤ) else (b : ℤ) - 256

/-- A 32-bit two's-complement `int` value read back as an unsigned bit
pattern (the representation on which the bitwise `|` of the source acts). -/
def asUInt32 (x : ℤ) : ℕ := (x % 4294967296).toNat

/-- The Client-ID length computation of `ThrottleBox::extractClientInfo`:
`uint16_t clientIdLen = (buffer[pos] << 8) | buffer[pos + 1];` with
`buffer` of (signed) `char`.  Both bytes are promoted to `int` with sign
extension, shifted/or-ed in 32-bit two's complement, and the result is
truncated to 16 bits by the `uint16_t` assignment. -/
def clientIdLen (b0 b1 : ℕ) : ℕ :=
  Nat.lor (asUInt32 (signExt b0 * 256)) (asUInt32 (signExt b1)) % 65536

/-- The CONNECT-parsing block of `ThrottleBox::extractClientInfo`, acting on
the peeked bytes (`bytesRead = buf.length`): the Client-ID payload bytes
assigned to `info.clientId`, or `[]` when the buffer is not recognised
(first byte `≠ 0x10`, or `pos + 2 < bytesRead` fails with `pos = 10`, or
`pos + clientIdLen < bytesRead` fails with `pos = 12`). -/
def parsedClientId (buf : List ℕ) : List ℕ :=
  if buf.headD 0 = 16 then
    if 12 < buf.length then
      let len := clientIdLen (buf.getD 10 0) (buf.getD 11 0)
      if 12 + len < buf.length then (buf.drop 12).take len else []
    else []
  else []

/-- `ThrottleBox::ClientInfo` from `include/throttlebox/throttlebox.hpp`. -/
structure ClientInfo where
  ip : String
  clientId : String
  deriving Repr, DecidableEq

/-- Render the parsed Client-ID payload bytes as the `std::string`
`info.clientId` the source builds from them. -/
def bytesToString (bs : List ℕ) : String := String.mk (bs.map Char.ofNat)

/-- `ThrottleBox::extractClientInfo` from `src/throttlebox.cpp`, as a
function of the peer IP string and the peeked bytes: `none` models the
`return false` taken when fewer than 10 bytes were peeked; otherwise the
returned `ClientInfo` carries the parsed Client-ID, replaced by
`"anonymous_" + ip` when it is empty. -/
def extractClientInfo (ip : String) (buf : List ℕ) : Option ClientInfo :=
  if buf.length < 10 then none
  else
    let cid := bytesToString (parsedClientId buf)
    some ⟨ip, if cid = "" then "anonymous_" ++ ip else cid⟩

/-- The observable effects of one `ThrottleBox::handleClient` worker:
whether a broker connection was established, whether the worker entered the
`forwardTraffic` pump loop, and the Metrics-Sink counters it incremented,
in order (the accept path's `total_connections` is emitted before the
worker starts and is not part of this record). -/
structure WorkerOutcome where
  brokerConnected : Bool
  enteredPump : Bool
  counters : List String
  deriving Repr, DecidableEq

/-- The counters incremented by `ThrottleBox::forwardTraffic` for a given
sequence of per-chunk rate-limit decisions: `allowed_messages` for an
allowed chunk, `blocked_messages` for a denied one. -/
def forwardTrafficCounters (decisions : List Bool) : List String :=
  decisions.map fun d => if d then "allowed_messages" else "blocked_messages"

/-- `ThrottleBox::handleClient` from `src/throttlebox.cpp`, abstracted over
the I/O environment: `buf` is the peeked byte buffer, `brokerOk` tells
whether `connectToBroker` succeeds, and `decisions` the rate-limit
decisions of the pump loop's client-to-broker chunks.  A failed
`extractClientInfo` (`< 10` bytes) or a failed broker connect returns from
the function before the trailing `close` and `client_disconnects`
increment; a worker that entered the pump loop increments
`client_disconnects` exactly once afterwards. -/
def handleClient (ip : String) (buf : List ℕ) (brokerOk : Bool)
    (decisions : List Bool) : WorkerOutcome :=
  match extractClientInfo ip buf with
  | none => ⟨false, false, []⟩
  | some _ =>
    if brokerOk then
      ⟨true, true, forwardTrafficCounters decisions ++ ["client_disconnects"]⟩
    else
      ⟨false, false, []⟩

/-! ## Helper lemmas on `Nat.lor` and the Client-ID length computation -/

theorem lor_shifted_add {i : ℕ} (a : ℕ) {b : ℕ} (hb : b < 2 ^ i) :
    Nat.lor (2 ^ i * a) b = 2 ^ i * a + b := by
  show (2 ^ i * a) ||| b = 2 ^ i * a + b
  apply Nat.eq_of_testBit_eq
  intro j
  rw [Nat.testBit_or, Nat.testBit_mul_pow_two_add a hb j, Nat.testBit_mul_pow_two]
  by_cases hj : j < i
  · simp [hj, Nat.not_le_of_lt hj]
  · have hji : i ≤ j := Nat.le_of_not_lt hj
    have hb2 : b < 2 ^ j := lt_of_lt_of_le hb (Nat.pow_le_pow_right (by norm_num) hji)
    simp [hj, hji, Nat.testBit_lt_two_pow hb2]

theorem lor_byte_split {i : ℕ} (a b : ℕ) {c d : ℕ} (hc : c < 2 ^ i)
    (hd : d < 2 ^ i) :
    Nat.lor (2 ^ i * a + c) (2 ^ i * b + d) = 2 ^ i * (Nat.lor a b) + Nat.lor c d := by
  show (2 ^ i * a + c) ||| (2 ^ i * b + d) = 2 ^ i * (a ||| b) + (c ||| d)
  apply Nat.eq_of_testBit_eq
  intro j
  rw [Nat.testBit_or, Nat.testBit_mul_pow_two_add a hc j,
    Nat.testBit_mul_pow_two_add b hd j,
    Nat.testBit_mul_pow_two_add (a ||| b) (Nat.or_lt_two_pow hc hd) j]
  by_cases hj : j < i <;> simp [hj, Nat.testBit_or]

theorem lor_ones {i k : ℕ} (hk : k < 2 ^ i) : Nat.lor k (2 ^ i - 1) = 2 ^ i - 1 := by
  show k ||| (2 ^ i - 1) = 2 ^ i - 1
  apply Nat.eq_of_testBit_eq
  intro j
  rw [Nat.testBit_or, Nat.testBit_two_pow_sub_one]
  by_cases hj : j < i
  · simp [hj]
  · have hji : i ≤ j := Nat.le_of_not_lt hj
    have hk2 : k < 2 ^ j := lt_of_lt_of_le hk (Nat.pow_le_pow_right (by norm_num) hji)
    simp [hj, Nat.testBit_lt_two_pow hk2]

/-- Closed form of the source's Client-ID length computation on byte values:
it produces the 16-bit big-endian value `256 * b0 + b1` when the low byte
`b1` has its high bit clear, and `0xFF00 ||| b1 = 65280 + b1` (the low
byte's sign extension flooding the high byte) when it does not. -/
theorem clientIdLen_eq {b0 b1 : ℕ} (h0 : b0 < 256) (h1 : b1 < 256) :
    clientIdLen b0 b1 = if b1 < 128 then 256 * b0 + b1 else 65280 + b1 := by
  have ha : asUInt32 (signExt b0 * 256)
      = 2 ^ 8 * (if b0 < 128 then b0 else b0 + 16776960) := by
    unfold asUInt32 signExt
    split <;> omega
  have hb : asUInt32 (signExt b1)
      = if b1 < 128 then b1 else 2 ^ 8 * 16777215 + b1 := by
    unfold asUInt32 signExt
    split <;> omega
  unfold clientIdLen
  rw [ha, hb]
  by_cases hc : b1 < 128
  · rw [if_pos hc, if_pos hc]
    rw [lor_shifted_add _ (show b1 < 2 ^ 8 by omega)]
    split <;> omega
  · rw [if_neg hc, if_neg hc]
    have h256 : 2 ^ 8 * (if b0 < 128 then b0 else b0 + 16776960)
        = 2 ^ 8 * (if b0 < 128 then b0 else b0 + 16776960) + 0 := by omega
    rw [h256, lor_byte_split _ _ (show 0 < 2 ^ 8 by norm_num) (show b1 < 2 ^ 8 by omega)]
    have hA : (if b0 < 128 then b0 else b0 + 16776960) < 2 ^ 24 := by split <;> omega
    have hones : Nat.lor (if b0 < 128 then b0 else b0 + 16776960) 16777215 = 16777215 := by
      have := lor_ones (i := 24) hA
      simpa using this
    have hz : Nat.lor 0 b1 = b1 := Nat.zero_or b1
    rw [hones, hz]
    omega

/-! ## Helper lemmas on the association-list map model -/

theorem lookupA_insert_self {α : Type} (m : List (String × α)) (k : String)
    (v : α) : lookupA (insertA m k v) k = some v := by
  induction m with
  | nil => simp [insertA, lookupA]
  | cons q rest ih =>
    by_cases h : q.1 = k
    · simp [insertA, lookupA, h]
    · simp [insertA, lookupA, h, ih]

theorem lookupA_insert_ne {α : Type} (m : List (String × α)) (k k' : String)
    (v : α) (h : k' ≠ k) : lookupA (insertA m k v) k' = lookupA m k' := by
  induction m with
  | nil =>
    simp only [insertA, lookupA]
    rw [if_neg (Ne.symm h)]
  | cons q rest ih =>
    simp only [insertA]
    by_cases hq : q.1 = k
    · rw [if_pos hq]
      simp only [lookupA]
      rw [if_neg (Ne.symm h), if_neg (fun he : q.1 = k' => h (hq ▸ he : k = k').symm)]
    · rw [if_neg hq]
      simp only [lookupA, ih]

theorem lookupA_eq_none {α : Type} (m : List (String × α)) (k : String)
    (h : k ∉ m.map Prod.fst) : lookupA m k = none := by
  induction m with
  | nil => rfl
  | cons q rest ih =>
    simp only [List.map_cons, List.mem_cons, not_or] at h
    simp only [lookupA]
    rw [if_neg (fun he : q.1 = k => h.1 he.symm)]
    exact ih h.2

theorem lookupA_filter {α : Type} (P : α → Bool) (m : List (String × α))
    (hm : (m.map Prod.fst).Nodup) (k : String) (v : α) :
    lookupA (m.filter fun q => P q.2) k = some v ↔
      (lookupA m k = some v ∧ P v = true) := by
  induction m with
  | nil => simp [lookupA]
  | cons q rest ih =>
    simp only [List.map_cons, List.nodup_cons] at hm
    simp only [List.filter_cons]
    by_cases h : q.1 = k
    · subst h
      by_cases hP : P q.2 = true
      · rw [if_pos hP]
        simp only [lookupA, if_pos rfl]
        constructor
        · intro he
          refine ⟨he, ?_⟩
          have hv : q.2 = v := Option.some.inj he
          rw [← hv]
          exact hP
        · intro hc
          exact hc.1
      · rw [if_neg hP]
        have hnone : lookupA (rest.filter fun q' => P q'.2) q.1 = none := by
          apply lookupA_eq_none
          intro hmem
          apply hm.1
          rcases List.mem_map.mp hmem with ⟨e, he, hfst⟩
          exact List.mem_map.mpr ⟨e, List.mem_of_mem_filter he, hfst⟩
        rw [hnone]
        simp only [lookupA, if_pos rfl]
        constructor
        · intro hc
          exact Option.noConfusion hc
        · intro hc
          have hv : q.2 = v := Option.some.inj hc.1
          rw [← hv] at hc
          exact absurd hc.2 hP
    · by_cases hP : P q.2 = true
      · rw [if_pos hP]
        simp only [lookupA]
        rw [if_neg h, if_neg h]
        exact ih hm.2
      · rw [if_neg hP]
        simp only [lookupA]
        rw [if_neg h]
        exact ih hm.2

theorem filter_idem {α : Type} (p : α → Bool) (l : List α) :
    (l.filter p).filter p = l.filter p := by
  induction l with
  | nil => rfl
  | cons x rest ih =>
    by_cases h : p x = true
    · simp [List.filter_cons, h, ih]
    · simp [List.filter_cons, h, ih]

/-! ## Helper lemmas on the bucket operations -/

theorem refillBucket_isBlocked (b : TokenBucket) (p : RateLimitPolicy)
    (now : ℤ) : (refillBucket b p now).isBlocked = b.isBlocked := by
  unfold refillBucket
  split <;> rfl

theorem refillBucket_blockedUntil (b : TokenBucket) (p : RateLimitPolicy)
    (now : ℤ) : (refillBucket b p now).blockedUntil = b.blockedUntil := by
  unfold refillBucket
  split <;> rfl

theorem refillBucket_bounds (b : TokenBucket) (p : RateLimitPolicy) (now : ℤ)
    (ht : 0 ≤ b.tokens) (hb : 0 ≤ p.burstSize)
    (hr : 0 ≤ p.maxMessagesPerSec) (hlr : b.lastRefill ≤ now) :
    0 ≤ (refillBucket b p now).tokens ∧
      (refillBucket b p now).tokens ≤ (p.burstSize : ℚ) := by
  unfold refillBucket
  split
  · dsimp only
    constructor
    · exact_mod_cast hb
    · exact le_refl _
  · dsimp only
    constructor
    · apply le_min
      · exact_mod_cast hb
      · have hnn : (0 : ℚ) ≤ ((now - b.lastRefill : ℤ) : ℚ) / 1000 := by
          apply div_nonneg _ (by norm_num)
          exact_mod_cast Int.sub_nonneg.mpr hlr
        have := mul_nonneg hnn hr
        linarith
    · exact min_le_left _ _

theorem checkAndUpdateBucket_bounds (b : TokenBucket) (p : RateLimitPolicy)
    (now : ℤ) (ht : 0 ≤ b.tokens) (hb : 0 ≤ p.burstSize)
    (hr : 0 ≤ p.maxMessagesPerSec) (hlr : b.lastRefill ≤ now) :
    0 ≤ (checkAndUpdateBucket b p now).2.tokens ∧
      (checkAndUpdateBucket b p now).2.tokens ≤ (p.burstSize : ℚ) := by
  obtain ⟨h0, h1⟩ := refillBucket_bounds b p now ht hb hr hlr
  unfold checkAndUpdateBucket
  dsimp only
  split_ifs with hA hB hC hD hE hF <;> dsimp only <;>
    exact ⟨by linarith, by linarith⟩

/-! ## Claim-text definitions (for refinement comparisons) -/

/-- The single-decision algorithm exactly as claim C2 words it: the call
first refills (unset `last_refill` initialises a full bucket, otherwise
`tokens := min(burst_capacity, tokens + elapsed_seconds * refill_rate)`),
then checks the block state (deny while `now < blocked_until`, clear the
flag once `now ≥ blocked_until`), and finally consumes one token or denies,
entering the blocked state exactly when `block_duration > 0`. -/
def claimAllowStep (B : TokenBucket) (P : RateLimitPolicy) (now : ℤ) :
    Bool × TokenBucket :=
  let refilled : TokenBucket :=
    if B.lastRefill = 0 then
      { B with tokens := (P.burstSize : ℚ), lastRefill := now }
    else
      { B with
          tokens := min (P.burstSize : ℚ)
            (B.tokens + ((now - B.lastRefill : ℤ) : ℚ) / 1000 * P.maxMessagesPerSec),
          lastRefill := now }
  if refilled.isBlocked = true ∧ now < refilled.blockedUntil then
    (false, refilled)
  else
    let cleared :=
      if refilled.isBlocked = true ∧ refilled.blockedUntil ≤ now then
        { refilled with isBlocked := false }
      else refilled
    if 1 ≤ cleared.tokens then
      (true, { cleared with tokens := cleared.tokens - 1 })
    else if 0 < P.blockDurationSec then
      (false, { cleared with isBlocked := true,
                             blockedUntil := now + P.blockDurationSec * 1000 })
    else
      (false, cleared)

/-- The parser as claim C6 words it: recognised only when the first byte is
`0x10`; a 16-bit big-endian Client-ID length read at the fixed offset 14;
then that many payload bytes; "not recognized" whenever the offset plus the
length exceeds the peeked buffer. -/
def claimParsedClientId (buf : List ℕ) : List ℕ :=
  if buf.headD 0 = 16 then
    let len := 256 * buf.getD 14 0 + buf.getD 15 0
    if 16 + len > buf.length then [] else (buf.drop 16).take len
  else []

/-! ## Claim theorems -/

/-- C2: one `allow` decision on a bucket refills first (initialising an
untouched bucket to a full one, otherwise clamping
`tokens + elapsed_seconds * refill_rate` at `burst_capacity`), then applies
the block check (denying inside an open block window, clearing an expired
one so the same call can still allow), and finally consumes one token or
denies, entering the blocked state exactly when `block_duration > 0`: the
source's `checkAndUpdateBucket` equals the claim's algorithm at every
bucket, policy and instant. -/
theorem checkAndUpdate_matches_claim_algorithm (B : TokenBucket)
    (P : RateLimitPolicy) (now : ℤ) :
    checkAndUpdateBucket B P now = claimAllowStep B P now := rfl

/-- C4: every `allow` call increments exactly one of the two cumulative
counters by one — `allowedMessages` on an allow decision, `blockedMessages`
on a deny — and leaves the other unchanged. -/
theorem allow_increments_exactly_one_counter (s : RateLimiterState)
    (now : ℤ) (ip clientId : String) :
    (allow s now ip clientId).2.allowedMessages
        = (if (allow s now ip clientId).1 then s.allowedMessages + 1
           else s.allowedMessages) ∧
    (allow s now ip clientId).2.blockedMessages
        = (if (allow s now ip clientId).1 then s.blockedMessages
           else s.blockedMessages + 1) ∧
    (allow s now ip clientId).2.allowedMessages
        + (allow s now ip clientId).2.blockedMessages
        = s.allowedMessages + s.blockedMessages + 1 := by
  unfold allow
  dsimp only
  cases hr : (checkAndUpdateBucket
      ((lookupA s.buckets (limiterKey ip clientId)).getD {})
      (effectivePolicy s clientId) now).1 <;> simp [hr] <;> omega

/-- C7: `setClientPolicy` installs or replaces the override-table entry for
the given client id and changes nothing else: the bucket table, the default
policy, both counters and every other client's override are untouched. -/
theorem setClientPolicy_frame (s : RateLimiterState) (clientId : String)
    (p : RateLimitPolicy) :
    (setClientPolicy s clientId p).buckets = s.buckets ∧
    (setClientPolicy s clientId p).defaultPolicy = s.defaultPolicy ∧
    (setClientPolicy s clientId p).allowedMessages = s.allowedMessages ∧
    (setClientPolicy s clientId p).blockedMessages = s.blockedMessages ∧
    lookupA (setClientPolicy s clientId p).clientPolicies clientId = some p ∧
    ∀ k, k ≠ clientId →
      lookupA (setClientPolicy s clientId p).clientPolicies k
        = lookupA s.clientPolicies k :=
  ⟨rfl, rfl, rfl, rfl, lookupA_insert_self s.clientPolicies clientId p,
    fun k hk => lookupA_insert_ne s.clientPolicies clientId k p hk⟩

/-- Witness for C7: a concrete override install leaves the bucket table and
another client's override untouched while the new entry is readable. -/
theorem setClientPolicy_frame_witness :
    (setClientPolicy
        ⟨⟨10, 20, 60⟩, [("d", ⟨5, 6, 7⟩)], [("b", ⟨2, 1000, 0, false⟩)], 3, 4⟩
        "c" ⟨1, 2, 3⟩).buckets = [("b", ⟨2, 1000, 0, false⟩)] ∧
    lookupA (setClientPolicy
        ⟨⟨10, 20, 60⟩, [("d", ⟨5, 6, 7⟩)], [("b", ⟨2, 1000, 0, false⟩)], 3, 4⟩
        "c" ⟨1, 2, 3⟩).clientPolicies "d" = some ⟨5, 6, 7⟩ := by
  have h := setClientPolicy_frame
    ⟨⟨10, 20, 60⟩, [("d", ⟨5, 6, 7⟩)], [("b", ⟨2, 1000, 0, false⟩)], 3, 4⟩
    "c" ⟨1, 2, 3⟩
  refine ⟨h.1, ?_⟩
  rw [h.2.2.2.2.2 "d" (by decide)]
  decide

/-- C8: `cleanupExpired` removes exactly the buckets whose `lastRefill` is
more than one hour before `now`, leaves every other bucket, the override
table and both counters unchanged, and is idempotent. -/
theorem cleanupExpired_spec (s : RateLimiterState) (now : ℤ)
    (hs : (s.buckets.map Prod.fst).Nodup) :
    (∀ k b, lookupA (cleanupExpired s now).buckets k = some b ↔
        (lookupA s.buckets k = some b ∧ now - b.lastRefill ≤ 3600000)) ∧
    (cleanupExpired s now).clientPolicies = s.clientPolicies ∧
    (cleanupExpired s now).defaultPolicy = s.defaultPolicy ∧
    (cleanupExpired s now).allowedMessages = s.allowedMessages ∧
    (cleanupExpired s now).blockedMessages = s.blockedMessages ∧
    cleanupExpired (cleanupExpired s now) now = cleanupExpired s now := by
  refine ⟨?_, rfl, rfl, rfl, rfl, ?_⟩
  · intro k b
    have h := lookupA_filter (bucketFresh now) s.buckets hs k b
    rw [show (cleanupExpired s now).buckets
        = s.buckets.filter fun q => bucketFresh now q.2 from rfl, h]
    unfold bucketFresh
    simp [not_lt]
  · unfold cleanupExpired
    dsimp only
    rw [filter_idem]

/-- Witness for C8: on a concrete two-bucket table at a concrete instant,
the bucket refreshed 1 000 ms ago survives cleanup and cleanup is
idempotent. -/
theorem cleanupExpired_spec_witness :
    lookupA (cleanupExpired
        ⟨⟨10, 20, 60⟩, [], [("old", ⟨1, 100, 0, false⟩),
          ("new", ⟨2, 3999000, 0, false⟩)], 0, 0⟩ 4000000).buckets "new"
      = some ⟨2, 3999000, 0, false⟩ ∧
    cleanupExpired (cleanupExpired
        ⟨⟨10, 20, 60⟩, [], [("old", ⟨1, 100, 0, false⟩),
          ("new", ⟨2, 3999000, 0, false⟩)], 0, 0⟩ 4000000) 4000000
      = cleanupExpired
        ⟨⟨10, 20, 60⟩, [], [("old", ⟨1, 100, 0, false⟩),
          ("new", ⟨2, 3999000, 0, false⟩)], 0, 0⟩ 4000000 := by
  have h := cleanupExpired_spec
    ⟨⟨10, 20, 60⟩, [], [("old", ⟨1, 100, 0, false⟩),
      ("new", ⟨2, 3999000, 0, false⟩)], 0, 0⟩ 4000000 (by decide)
  exact ⟨(h.1 "new" ⟨2, 3999000, 0, false⟩).mpr ⟨by decide, by decide⟩,
    h.2.2.2.2.2⟩

/-- C3: a worker whose peek returns fewer than 10 bytes abandons the
connection — no broker socket is opened, no counter is incremented — and
`client_disconnects` is incremented exactly once per worker that entered
the pump loop. -/
theorem short_peek_abandons (ip : String) (buf : List ℕ) (brokerOk : Bool)
    (decisions : List Bool) (h : buf.length < 10) :
    handleClient ip buf brokerOk decisions = ⟨false, false, []⟩ ∧
    ∀ (ip2 : String) (buf2 : List ℕ) (ok2 : Bool) (ds2 : List Bool),
      (handleClient ip2 buf2 ok2 ds2).enteredPump = true →
      (handleClient ip2 buf2 ok2 ds2).counters.count "client_disconnects"
        = 1 := by
  constructor
  · unfold handleClient extractClientInfo
    rw [if_pos h]
  · intro ip2 buf2 ok2 ds2
    unfold handleClient
    cases extractClientInfo ip2 buf2 with
    | none =>
      intro hpump
      simp at hpump
    | some info =>
      cases ok2 with
      | false =>
        intro hpump
        simp at hpump
      | true =>
        intro _
        have hz : (forwardTrafficCounters ds2).count "client_disconnects"
            = 0 := by
          rw [List.count_eq_zero]
          intro hmem
          unfold forwardTrafficCounters at hmem
          rcases List.mem_map.mp hmem with ⟨d, _, hd⟩
          cases d <;> simp at hd
        simp [List.count_append, hz]

/-- Witness for C3: a concrete 3-byte peek is abandoned with no broker
connection and no counter updates, and a concrete pumped worker increments
`client_disconnects` once. -/
theorem short_peek_abandons_witness :
    handleClient "1.2.3.4" [16, 0, 0] true [true, false]
      = ⟨false, false, []⟩ ∧
    (handleClient "5.6.7.8" [16, 0, 0, 0, 0, 0, 0, 0, 0, 0] true
      [true, false]).counters.count "client_disconnects" = 1 := by
  have h := short_peek_abandons "1.2.3.4" [16, 0, 0] true [true, false]
    (by norm_num)
  exact ⟨h.1, h.2 "5.6.7.8" [16, 0, 0, 0, 0, 0, 0, 0, 0, 0] true
    [true, false] (by decide)⟩

/-- Counterexample for C1: a 10-byte CONNECT peek whose Client-ID cannot be
extracted yields `clientId = "anonymous_1.2.3.4"`, and the `allow` call the
worker then makes files the bucket under that display string, not under the
bare IP `"1.2.3.4"` (whose bucket slot stays empty). -/
theorem anonymous_key_counterexample :
    extractClientInfo "1.2.3.4" [16, 0, 0, 0, 0, 0, 0, 0, 0, 0]
      = some ⟨"1.2.3.4", "anonymous_1.2.3.4"⟩ ∧
    limiterKey "1.2.3.4" "anonymous_1.2.3.4" = "anonymous_1.2.3.4" ∧
    "anonymous_1.2.3.4" ≠ "1.2.3.4" ∧
    (lookupA (allow ⟨⟨1, 5, 0⟩, [], [], 0, 0⟩ 1000 "1.2.3.4"
        "anonymous_1.2.3.4").2.buckets "anonymous_1.2.3.4").isSome = true ∧
    lookupA (allow ⟨⟨1, 5, 0⟩, [], [], 0, 0⟩ 1000 "1.2.3.4"
        "anonymous_1.2.3.4").2.buckets "1.2.3.4" = none := by
  exact ⟨by decide, by decide, by decide, by rfl, by rfl⟩

/-- C1 (amended): for a connection whose Client-ID could not be parsed, the
key under which the Rate Limiter files the token bucket is the display
string `"anonymous_" + ip` that `extractClientInfo` substituted — not the
bare IP string, which the `allow`-side fallback never sees because the
substituted id is non-empty. -/
theorem anonymous_key_is_display_string (ip : String) (buf : List ℕ)
    (info : ClientInfo) (hx : extractClientInfo ip buf = some info)
    (hempty : parsedClientId buf = []) :
    info.clientId = "anonymous_" ++ ip ∧
    limiterKey info.ip info.clientId = "anonymous_" ++ ip ∧
    limiterKey info.ip info.clientId ≠ info.ip := by
  have hne : ("anonymous_" ++ ip) ≠ "" := by
    intro h
    have hl := congrArg String.length h
    rw [String.length_append] at hl
    have h10 : ("anonymous_" : String).length = 10 := rfl
    have h0 : ("" : String).length = 0 := rfl
    omega
  unfold extractClientInfo at hx
  by_cases hlen : buf.length < 10
  · rw [if_pos hlen] at hx
    exact Option.noConfusion hx
  · rw [if_neg hlen] at hx
    dsimp only at hx
    rw [hempty] at hx
    have hmt : bytesToString [] = "" := rfl
    rw [hmt, if_pos rfl] at hx
    have hinfo := Option.some.inj hx
    rw [← hinfo]
    refine ⟨rfl, ?_, ?_⟩
    · unfold limiterKey
      dsimp only
      rw [if_neg hne]
    · unfold limiterKey
      dsimp only
      rw [if_neg hne]
      intro h
      have hl := congrArg String.length h
      rw [String.length_append] at hl
      have h10 : ("anonymous_" : String).length = 10 := rfl
      omega

/-- Witness for C1 (amended): the concrete unparseable 10-byte peek of the
counterexample produces the key `"anonymous_" ++ "1.2.3.4"`. -/
theorem anonymous_key_witness :
    limiterKey "1.2.3.4" "anonymous_1.2.3.4" = "anonymous_" ++ "1.2.3.4" :=
  (anonymous_key_is_display_string "1.2.3.4" [16, 0, 0, 0, 0, 0, 0, 0, 0, 0]
    ⟨"1.2.3.4", "anonymous_1.2.3.4"⟩ (by decide) (by decide)).2.1

/-- Counterexample for C6: on a 20-byte CONNECT peek with Client-ID length
3 the source parser reads the length at offset 10 and extracts the payload
`[97, 98, 99]` at offset 12, while the claim's fixed-offset-14 rule reads a
huge length and reports "not recognized". -/
theorem parser_offset_counterexample :
    parsedClientId
        [16, 0, 0, 0, 0, 0, 0, 0, 0, 0, 0, 3, 97, 98, 99, 0, 0, 0, 0, 0]
      = [97, 98, 99] ∧
    claimParsedClientId
        [16, 0, 0, 0, 0, 0, 0, 0, 0, 0, 0, 3, 97, 98, 99, 0, 0, 0, 0, 0]
      = [] ∧
    ([97, 98, 99] : List ℕ) ≠ [] ∧
    parsedClientId [16, 0, 0, 0, 0, 0, 0, 0, 0, 0, 0, 3, 97, 98, 99]
      = [] := by
  exact ⟨by decide, by decide, by decide, by decide⟩

/-- C6 (amended): the source parser recognises a peeked buffer only when
its first byte is `0x10` and more than 12 bytes were peeked; it reads the
Client-ID length from the two bytes at offset 10 (the 16-bit big-endian
value whenever the byte at offset 11 is below `0x80`), takes that many
payload bytes from offset 12, and returns "not recognized" whenever
`12 + length` reaches or exceeds the peeked byte count (the exact-fit
buffer included). -/
theorem parser_characterization (buf : List ℕ)
    (hbytes : ∀ b ∈ buf, b < 256) (hlow : buf.getD 11 0 < 128) :
    parsedClientId buf =
      if buf.headD 0 = 16 ∧ 12 < buf.length ∧
          12 + (256 * buf.getD 10 0 + buf.getD 11 0) < buf.length then
        (buf.drop 12).take (256 * buf.getD 10 0 + buf.getD 11 0)
      else [] := by
  by_cases h0 : buf.headD 0 = 16
  · by_cases h1 : 12 < buf.length
    · have h10l : 10 < buf.length := by omega
      have h11l : 11 < buf.length := by omega
      have he10 : buf.getD 10 0 = buf[10] := by
        simp [List.getD_eq_getElem?_getD, List.getElem?_eq_getElem h10l]
      have he11 : buf.getD 11 0 = buf[11] := by
        simp [List.getD_eq_getElem?_getD, List.getElem?_eq_getElem h11l]
      have hb10 : buf.getD 10 0 < 256 := by
        rw [he10]
        exact hbytes _ (List.getElem_mem h10l)
      have hb11 : buf.getD 11 0 < 256 := by
        rw [he11]
        exact hbytes _ (List.getElem_mem h11l)
      have hlen : clientIdLen (buf.getD 10 0) (buf.getD 11 0)
          = 256 * buf.getD 10 0 + buf.getD 11 0 := by
        rw [clientIdLen_eq hb10 hb11, if_pos hlow]
      unfold parsedClientId
      rw [if_pos h0, if_pos h1]
      dsimp only
      rw [hlen]
      by_cases h2 : 12 + (256 * buf.getD 10 0 + buf.getD 11 0) < buf.length
      · rw [if_pos h2, if_pos ⟨h0, h1, h2⟩]
      · rw [if_neg h2, if_neg (fun hc => h2 hc.2.2)]
    · unfold parsedClientId
      rw [if_pos h0, if_neg h1, if_neg (fun hc => h1 hc.2.1)]
  · unfold parsedClientId
    rw [if_neg h0, if_neg (fun hc => h0 hc.1)]

/-- Witness for C6 (amended): a concrete 16-byte peek with length bytes
`0, 2` at offset 10 yields the two payload bytes at offset 12. -/
theorem parser_characterization_witness :
    parsedClientId [16, 0, 0, 0, 0, 0, 0, 0, 0, 0, 0, 2, 97, 98, 0, 0]
      = [97, 98] := by
  have h := parser_characterization
    [16, 0, 0, 0, 0, 0, 0, 0, 0, 0, 0, 2, 97, 98, 0, 0]
    (by decide) (by decide)
  rw [h]
  decide

/-- Counterexample for C9: the bytes `0x80, 0x00` have a set high bit in
the first (high) byte, yet the computed Client-ID length still equals their
16-bit big-endian value 32768 — sign extension of the high byte is erased
by the `uint16_t` truncation, refuting the "only when both bytes are below
0x80" characterisation. -/
theorem signext_counterexample :
    clientIdLen 128 0 = 256 * 128 + 0 ∧ ¬ (128 < 128) := by
  exact ⟨by decide, by decide⟩

/-- C9 (amended): the length computed from two (signed-`char`) buffer bytes
equals their 16-bit big-endian value exactly when the low byte is below
`0x80` or the high byte is `0xFF`; when the low byte has its high bit set
the result is `0xFF00 + low` (at least 65408), so the parser's bounds check
fails on any peeked buffer (at most 1024 bytes) and the Client-ID is not
extracted. -/
theorem signext_characterization (b0 b1 : ℕ) (h0 : b0 < 256)
    (h1 : b1 < 256) :
    (clientIdLen b0 b1 = 256 * b0 + b1 ↔ (b1 < 128 ∨ b0 = 255)) ∧
    (128 ≤ b1 → clientIdLen b0 b1 = 65280 + b1 ∧
      ∀ buf : List ℕ, buf.length ≤ 1024 → buf.getD 10 0 = b0 →
        buf.getD 11 0 = b1 → parsedClientId buf = []) := by
  have hc := clientIdLen_eq h0 h1
  constructor
  · by_cases hb : b1 < 128
    · rw [hc, if_pos hb]
      exact ⟨fun _ => Or.inl hb, fun _ => rfl⟩
    · rw [hc, if_neg hb]
      constructor
      · intro he
        right
        omega
      · intro hor
        rcases hor with h | h
        · exact absurd h hb
        · omega
  · intro hb1
    refine ⟨by rw [hc, if_neg (by omega)], ?_⟩
    intro buf hlen h10 h11
    have hbig : ¬ (12 + clientIdLen (buf.getD 10 0) (buf.getD 11 0)
        < buf.length) := by
      rw [h10, h11, hc, if_neg (by omega)]
      omega
    simp only [parsedClientId]
    split_ifs <;> rfl

/-- Witness for C9 (amended): for bytes `0x00, 0x80` the computed length is
65408 and a concrete 13-byte peek carrying them falls back to the
anonymous identity. -/
theorem signext_characterization_witness :
    clientIdLen 0 128 = 65280 + 128 ∧
    parsedClientId [16, 0, 0, 0, 0, 0, 0, 0, 0, 0, 0, 128, 97] = [] := by
  have h := (signext_characterization 0 128 (by norm_num)
    (by norm_num)).2 (by norm_num)
  exact ⟨h.1, h.2 [16, 0, 0, 0, 0, 0, 0, 0, 0, 0, 0, 128, 97]
    (by norm_num) (by decide) (by decide)⟩

/-- Counterexample for C5: with default policy (rate 1, burst 5, no block),
one `allow` at t = 1000 ms creates bucket `"c"` with 4 tokens; installing an
override with `burst_capacity = 2` leaves the 4 tokens in place, so
immediately after `set_client_policy` the bucket's token count exceeds the
burst capacity of its effective policy, refuting the claim's "in
particular" case. -/
theorem tokens_exceed_after_policy_shrink :
    lookupA (setClientPolicy
        (allow ⟨⟨1, 5, 0⟩, [], [], 0, 0⟩ 1000 "1.1.1.1" "c").2
        "c" ⟨1, 2, 0⟩).buckets "c" = some ⟨4, 1000, 0, false⟩ ∧
    (effectivePolicy (setClientPolicy
        (allow ⟨⟨1, 5, 0⟩, [], [], 0, 0⟩ 1000 "1.1.1.1" "c").2
        "c" ⟨1, 2, 0⟩) "c").burstSize = 2 ∧
    ¬ ((4 : ℚ) ≤ ((2 : ℤ) : ℚ)) := by
  refine ⟨?_, ?_, by norm_num⟩
  · norm_num [allow, setClientPolicy, effectivePolicy, lookupA, insertA,
      limiterKey, checkAndUpdateBucket, refillBucket]
    intro h
    exact absurd h (by decide)
  · norm_num [allow, setClientPolicy, effectivePolicy, lookupA, insertA,
      limiterKey, checkAndUpdateBucket, refillBucket]

/-- C5 (amended): after every `allow` call the touched bucket satisfies
`0 ≤ tokens ≤ burst_capacity` of that call's effective policy (for a
non-negative policy and a clock not behind the bucket's stamp), and
`cleanup_expired` only removes buckets, so it preserves any per-bucket
invariant; the bound is not restored by `set_client_policy` itself. -/
theorem tokens_range_after_allow (s : RateLimiterState) (now : ℤ)
    (ip clientId : String) (hnow : 0 ≤ now)
    (hpb : 0 ≤ (effectivePolicy s clientId).burstSize)
    (hpr : 0 ≤ (effectivePolicy s clientId).maxMessagesPerSec)
    (hbkt : ∀ b, lookupA s.buckets (limiterKey ip clientId) = some b →
        0 ≤ b.tokens ∧ b.lastRefill ≤ now) :
    (∀ b, lookupA (allow s now ip clientId).2.buckets (limiterKey ip clientId)
          = some b →
        0 ≤ b.tokens ∧
          b.tokens ≤ ((effectivePolicy s clientId).burstSize : ℚ)) ∧
    ∀ (t : RateLimiterState) (m : ℤ) (e : String × TokenBucket),
      e ∈ (cleanupExpired t m).buckets → e ∈ t.buckets := by
  constructor
  · intro b hb
    have hlook : lookupA (allow s now ip clientId).2.buckets
          (limiterKey ip clientId)
        = some (checkAndUpdateBucket
            ((lookupA s.buckets (limiterKey ip clientId)).getD {})
            (effectivePolicy s clientId) now).2 :=
      lookupA_insert_self s.buckets (limiterKey ip clientId) _
    rw [hlook] at hb
    have hbeq := Option.some.inj hb
    rw [← hbeq]
    have hold : 0 ≤ ((lookupA s.buckets (limiterKey ip clientId)).getD
          ({} : TokenBucket)).tokens ∧
        ((lookupA s.buckets (limiterKey ip clientId)).getD
          ({} : TokenBucket)).lastRefill ≤ now := by
      cases hx : lookupA s.buckets (limiterKey ip clientId) with
      | none => exact ⟨le_refl 0, hnow⟩
      | some bb => exact hbkt bb hx
    exact checkAndUpdateBucket_bounds _ _ now hold.1 hpb hpr hold.2
  · intro t m e he
    exact List.mem_of_mem_filter he

/-- Witness for C5 (amended): the concrete `allow` of the counterexample
scenario lands the bucket inside `[0, burst_capacity]` of its call's
policy. -/
theorem tokens_range_after_allow_witness :
    0 ≤ (⟨4, 1000, 0, false⟩ : TokenBucket).tokens ∧
    (⟨4, 1000, 0, false⟩ : TokenBucket).tokens
      ≤ ((effectivePolicy ⟨⟨1, 5, 0⟩, [], [], 0, 0⟩ "c").burstSize : ℚ) := by
  have h := tokens_range_after_allow ⟨⟨1, 5, 0⟩, [], [], 0, 0⟩ 1000
    "1.1.1.1" "c" (by norm_num) (by norm_num [effectivePolicy, lookupA])
    (by norm_num [effectivePolicy, lookupA])
    (by intro b hb; simp [lookupA] at hb)
  exact h.1 ⟨4, 1000, 0, false⟩ (by
    norm_num [allow, effectivePolicy, lookupA, insertA, limiterKey,
      checkAndUpdateBucket, refillBucket])

/-- C10: a denied `allow` call on a bucket already blocked with
`now < blocked_until` leaves the block untouched: the decision is deny and
the resulting bucket is exactly the refilled one, whose `isBlocked` and
`blockedUntil` equal the original bucket's (only `tokens` and `lastRefill`
change, via the preceding refill). -/
theorem blocked_deny_preserves_block (b : TokenBucket) (p : RateLimitPolicy)
    (now : ℤ) (hblk : b.isBlocked = true) (hwin : now < b.blockedUntil) :
    checkAndUpdateBucket b p now = (false, refillBucket b p now) ∧
    (checkAndUpdateBucket b p now).2.isBlocked = true ∧
    (checkAndUpdateBucket b p now).2.blockedUntil = b.blockedUntil := by
  have h1 : (refillBucket b p now).isBlocked = true := by
    rw [refillBucket_isBlocked]; exact hblk
  have h2 : (refillBucket b p now).blockedUntil = b.blockedUntil :=
    refillBucket_blockedUntil b p now
  have hmain : checkAndUpdateBucket b p now = (false, refillBucket b p now) := by
    unfold checkAndUpdateBucket
    dsimp only
    rw [if_pos ⟨h1, by rw [h2]; exact hwin⟩]
  exact ⟨hmain, by rw [hmain]; exact h1, by rw [hmain]; exact h2⟩

/-- Witness for C10: a concrete blocked bucket mid-window is denied and its
block fields are preserved. -/
theorem blocked_deny_preserves_block_witness :
    checkAndUpdateBucket ⟨0, 5, 100, true⟩ ⟨1, 5, 60⟩ 50
      = (false, refillBucket ⟨0, 5, 100, true⟩ ⟨1, 5, 60⟩ 50) :=
  (blocked_deny_preserves_block ⟨0, 5, 100, true⟩ ⟨1, 5, 60⟩ 50 rfl
    (by norm_num)).1

end ThrottleBox
